import Mathlib

/-!
Shallow embedding of the session / registration / upload logic of
`server.py` (NAS Mini). Strings are Lean `String`s, byte contents are
`List Nat`, and times are integer unix seconds. Each definition mirrors
the Python function of the same (or closely related) name.
-/

namespace NasMini

/-- Model of `ALLOWED_EXTS` from the config section of `server.py`. -/
def ALLOWED_EXTS : List String := [".zip", ".rar", ".apk"]

/-- Model of `MAX_UPLOAD_CHUNK` (the I/O buffer bound, in bytes). -/
def MAX_UPLOAD_CHUNK : Nat := 32 * 1024 * 1024

/-- Model of `SECRET_KEY` (the default value used when the env var is unset). -/
def SECRET_KEY : String := "dev-secret-change-me"

/-- Model of `JWT_EXP_MIN = 24*60` (session expiry window in minutes). -/
def JWT_EXP_MIN : Int := 24 * 60

/-- Model of `QR_EXP_SEC = 120` (QR claim token expiry in seconds). -/
def QR_EXP_SEC : Int := 120

/-- Model of `DATA_ROOT = "data"` (root of the per-user folders). -/
def DATA_ROOT : String := "data"

/-! ### Session token codec (`create_jwt` / `verify_jwt`) -/

/-- An HMAC signature is modelled as the (key, subject, expiry) triple
itself: an injective pairing stands in for the MAC function, so a
signature verifies exactly when it was produced with the same key over
the same payload. -/
def macSign (key sub : String) (exp : Int) : String × String × Int :=
  (key, sub, exp)

/-- A signed session token: payload `\x7bsub, exp\x7d` plus signature. -/
structure Jwt where
  sub : String
  exp : Int
  sig : String × String × Int
deriving DecidableEq

/-- Model of `create_jwt`: the expiry is `JWT_EXP_MIN` minutes after the
issuance instant `now`. -/
def create_jwt (username : String) (now : Int) : Jwt :=
  { sub := username
    exp := now + JWT_EXP_MIN * 60
    sig := macSign SECRET_KEY username (now + JWT_EXP_MIN * 60) }

/-- Model of `verify_jwt`, with the `jose.jwt.decode` expiry semantics
(zero leeway): the token is rejected exactly when the signature does not
verify or `exp < now`. -/
def verify_jwt (tok : Jwt) (now : Int) : Option String :=
  if tok.sig = macSign SECRET_KEY tok.sub tok.exp ∧ ¬ tok.exp < now then
    some tok.sub
  else none

/-! ### QR claim token store (`qr_tokens` table and `api_qr_claim`) -/

/-- The `qr_tokens` table: rows of (token, username, expire_at). The
`token` column is the primary key. -/
abbrev QrStore := List (String × String × Int)

/-- Model of `SELECT username, expire_at FROM qr_tokens WHERE token=?`. -/
def qrLookup : QrStore → String → Option (String × Int)
  | [], _ => none
  | (t, u, e) :: rest, tok => if t = tok then some (u, e) else qrLookup rest tok

/-- Model of `DELETE FROM qr_tokens WHERE token=?`. -/
def qrDelete : QrStore → String → QrStore
  | [], _ => []
  | (t, u, e) :: rest, tok =>
    if t = tok then qrDelete rest tok else (t, u, e) :: qrDelete rest tok

/-- Outcome of a claim request: the two 400 responses (`QR không hợp lệ`,
`QR đã hết hạn`) are the spec's `InvalidOrExpiredToken`. -/
inductive ClaimResult where
  | invalidToken
  | expired
  | ok (username : String)
deriving DecidableEq

/-- Whether the claim outcome is one of the two 400 error responses. -/
def ClaimResult.isErr : ClaimResult → Bool
  | .ok _ => false
  | _ => true

/-- Model of `api_qr_claim`: look the token up; absent rows give the
invalid-token 400; rows with `expire_at < now` give the expired 400 and
leave the store untouched; otherwise the row is deleted and the bound
username is logged in. -/
def api_qr_claim (store : QrStore) (token : String) (now : Int) :
    ClaimResult × QrStore :=
  match qrLookup store token with
  | none => (.invalidToken, store)
  | some (u, e) =>
    if e < now then (.expired, store) else (.ok u, qrDelete store token)

/-! ### Registration (`api_register`, `users` and `ip_quota` tables) -/

/-- Model of Python `str.strip()` on the submitted username. -/
def stripWs (s : String) : String :=
  ⟨((s.toList.dropWhile Char.isWhitespace).reverse.dropWhile
      Char.isWhitespace).reverse⟩

/-- The persistent registration state: the `users` table (usernames are
UNIQUE) and the `ip_quota` table (ip ↦ count). -/
structure RegState where
  users : List String
  quota : List (String × Nat)
deriving DecidableEq

/-- Model of `SELECT count FROM ip_quota WHERE ip=?`. -/
def qLookup : List (String × Nat) → String → Option Nat
  | [], _ => none
  | (k, v) :: rest, ip => if k = ip then some v else qLookup rest ip

/-- The quota count an address has accumulated (`0` when no row exists). -/
def quotaCount (st : RegState) (ip : String) : Nat :=
  (qLookup st.quota ip).getD 0

/-- Model of the quota bump: `UPDATE ... count=count+1` when a row exists,
`INSERT ... VALUES(?,1)` otherwise. -/
def qBump : List (String × Nat) → String → List (String × Nat)
  | [], ip => [(ip, 1)]
  | (k, v) :: rest, ip =>
    if k = ip then (k, v + 1) :: rest else (k, v) :: qBump rest ip

/-- Outcome of a registration request. -/
inductive RegResult where
  | missingFields
  | quotaExceeded
  | duplicateUsername
  | ok
deriving DecidableEq

/-- Model of `api_register`: strip the username; reject empty fields;
reject when the address is at the cap of 2; the `INSERT` raises an
integrity error on a duplicate username, in which case the connection is
closed without committing, so the whole transaction (including the quota
bump) rolls back; otherwise the user row and the bumped quota commit
together. -/
def api_register (st : RegState) (usernameRaw password ip : String) :
    RegResult × RegState :=
  let username := stripWs usernameRaw
  if username = "" ∨ password = "" then (.missingFields, st)
  else if 2 ≤ quotaCount st ip then (.quotaExceeded, st)
  else if username ∈ st.users then (.duplicateUsername, st)
  else (.ok, { users := username :: st.users, quota := qBump st.quota ip })

/-! ### Paths (`os.path.splitext`, `os.path.join`, directory resolution) -/

/-- Index of the last occurrence of `c`, as `posixpath`'s `rfind` (with
`none` for "not found"). -/
def rfindIdx (c : Char) : List Char → Option Nat
  | [] => none
  | x :: rest =>
    match rfindIdx c rest with
    | some i => some (i + 1)
    | none => if x = c then some 0 else none

/-- Model of `posixpath.splitext` on char lists: split at the last dot of
the basename, unless every character between the basename start and that
dot is itself a dot (leading dots carry no extension). -/
def splitextChars (p : List Char) : List Char × List Char :=
  match rfindIdx '.' p with
  | none => (p, [])
  | some d =>
    let fi :=
      match rfindIdx '/' p with
      | none => some 0
      | some si => if si < d then some (si + 1) else none
    match fi with
    | none => (p, [])
    | some s =>
      if ((p.drop s).take (d - s)).any (fun ch => ch ≠ '.') then
        (p.take d, p.drop d)
      else (p, [])

/-- Model of `os.path.splitext` on strings. -/
def splitext (p : String) : String × String :=
  (⟨(splitextChars p.toList).1⟩, ⟨(splitextChars p.toList).2⟩)

/-- Model of Python `str.lower()` (ASCII case folding suffices for the
extension comparison). -/
def lowerStr (s : String) : String :=
  ⟨s.toList.map Char.toLower⟩

/-- Model of `posixpath.join` for two components. -/
def pathJoin (a b : String) : String :=
  if b.toList.head? = some '/' then b
  else if a = "" ∨ a.toList.getLast? = some '/' then a ++ b
  else a ++ "/" ++ b

/-- Model of `user_dir`: `os.path.join(DATA_ROOT, username)` (the
`os.makedirs` side effect is the file-system state below). -/
def user_dir (username : String) : String :=
  pathJoin DATA_ROOT username

/-- Raw split of a char list on `'/'`, keeping empty groups. -/
def splitRaw : List Char → List (List Char)
  | [] => [[]]
  | c :: rest =>
    if c = '/' then [] :: splitRaw rest
    else
      match splitRaw rest with
      | [] => [[c]]
      | g :: gs => (c :: g) :: gs

/-- Whether the path string is absolute (starts with `'/'`). -/
def isAbsPath (s : String) : Bool :=
  match s.toList.head? with
  | some c => c == '/'
  | none => false

/-- Kernel path resolution over components: empty and `.` components are
dropped, `..` pops the previous component (staying put at the root of an
absolute path, accumulating at the front of a relative one). -/
def normFold (ab : Bool) : List String → List String → List String
  | acc, [] => acc.reverse
  | acc, c :: rest =>
    if c = "" ∨ c = "." then normFold ab acc rest
    else if c = ".." then
      match acc with
      | [] => if ab then normFold ab [] rest else normFold ab [".."] rest
      | a :: as =>
        if a = ".." then normFold ab (".." :: a :: as) rest
        else normFold ab as rest
    else normFold ab (c :: acc) rest

/-- The location a path string actually denotes once the OS resolves it:
an absolute flag plus the resolved component list. -/
def normPath (s : String) : Bool × List String :=
  (isAbsPath s,
   normFold (isAbsPath s) [] ((splitRaw s.toList).map String.mk))

/-- Whether a resolved location lies inside `data/<u>` (the requesting
user's own directory). -/
def startsWithComps : List String → List String → Bool
  | [], _ => true
  | _ :: _, [] => false
  | a :: as, b :: bs => a = b && startsWithComps as bs

/-- A resolved location is inside the user's directory when it is
relative (to the server's working directory) and begins with
`["data", u]`. -/
def insideUserDir (u : String) (p : Bool × List String) : Bool :=
  !p.1 && startsWithComps ["data", u] p.2

/-! ### File-system state and the upload pipeline (`api_upload`) -/

/-- The on-disk state: a map from resolved locations to file contents. -/
abbrev FS := List ((Bool × List String) × List Nat)

/-- Contents stored at a resolved location, if any. -/
def fsLookup : FS → Bool × List String → Option (List Nat)
  | [], _ => none
  | (k, v) :: rest, key => if k = key then some v else fsLookup rest key

/-- Model of `open(target, "wb")` plus the chunk writes: the file at the
resolved location is created or truncated and ends up holding `v`. -/
def fsWrite : FS → Bool × List String → List Nat → FS
  | [], key, v => [(key, v)]
  | (k, w) :: rest, key, v =>
    if k = key then (key, v) :: rest else (k, w) :: fsWrite rest key v

/-- Cumulative byte totals broadcast after each written chunk, starting
from a running total `acc`. -/
def cumSumsFrom (acc : Nat) : List Nat → List Nat
  | [] => []
  | x :: xs => (acc + x) :: cumSumsFrom (acc + x) xs

/-- Outcome of an upload request (the authenticated-user gate is modelled
by taking the username as an argument). -/
inductive UploadResult where
  | missingFile
  | unsupportedType
  | ok
deriving DecidableEq

/-- Model of `api_upload`: reject a missing filename; reject when the
lower-cased `splitext` extension is not in `ALLOWED_EXTS`; otherwise
stream the chunks into `os.path.join(user_dir(user), filename)` — the
read loop stops at the first empty chunk, and after each written chunk a
progress event carrying the cumulative byte total is broadcast. The
returned list is the sequence of broadcast cumulative byte totals. -/
def api_upload (fs : FS) (user filename : String) (chunks : List (List Nat)) :
    UploadResult × FS × List Nat :=
  if filename = "" then (.missingFile, fs, [])
  else if lowerStr (splitext filename).2 ∈ ALLOWED_EXTS then
    (.ok,
     fsWrite fs (normPath (pathJoin (user_dir user) filename))
       (chunks.takeWhile (fun c => !c.isEmpty)).flatten,
     cumSumsFrom 0 ((chunks.takeWhile (fun c => !c.isEmpty)).map List.length))
  else (.unsupportedType, fs, [])

/-- One row of `list_user_files`: a stored file is listed for `u` exactly
when it sits directly inside the relative directory `data/<u>`. -/
def fileEntry (u : String) (e : (Bool × List String) × List Nat) :
    Option (String × Nat) :=
  match e.1.2 with
  | [d, u2, name] =>
    if e.1.1 = false ∧ d = "data" ∧ u2 = u then some (name, e.2.length)
    else none
  | _ => none

/-- Lexicographic code-point order on char lists (Python string order). -/
def lexLe : List Char → List Char → Bool
  | [], _ => true
  | _ :: _, [] => false
  | a :: as, b :: bs => if a = b then lexLe as bs else decide (a < b)

/-- Insertion into a name-sorted listing. -/
def insSorted (x : String × Nat) : List (String × Nat) → List (String × Nat)
  | [] => [x]
  | y :: ys => if lexLe x.1.toList y.1.toList then x :: y :: ys else y :: insSorted x ys

/-- Name-sorted listing, as `sorted(os.listdir(p))`. -/
def sortEntries (l : List (String × Nat)) : List (String × Nat) :=
  l.foldr insSorted []

/-- Model of `list_user_files`: the name and size of every file directly
inside `data/<u>`, sorted by name. -/
def list_user_files (u : String) (fs : FS) : List (String × Nat) :=
  sortEntries (fs.filterMap (fileEntry u))

/-- A string usable as a single path component: nonempty, not a dot
component, and slash-free. -/
def validComp (s : String) : Prop :=
  s ≠ "" ∧ s ≠ "." ∧ s ≠ ".." ∧ '/' ∉ s.toList

instance (s : String) : Decidable (validComp s) :=
  inferInstanceAs (Decidable (s ≠ "" ∧ s ≠ "." ∧ s ≠ ".." ∧ '/' ∉ s.toList))

/-! ### Helper lemmas -/

theorem qrLookup_qrDelete (st : QrStore) (tok : String) :
    qrLookup (qrDelete st tok) tok = none := by
  induction st with
  | nil => rfl
  | cons e rest ih =>
    obtain ⟨t, u, x⟩ := e
    by_cases h : t = tok
    · simpa [qrDelete, h] using ih
    · simpa [qrDelete, qrLookup, h] using ih

theorem qLookup_qBump (q : List (String × Nat)) (ip : String) :
    qLookup (qBump q ip) ip = some ((qLookup q ip).getD 0 + 1) := by
  induction q with
  | nil => simp [qBump, qLookup]
  | cons e rest ih =>
    obtain ⟨k, v⟩ := e
    by_cases h : k = ip
    · simp [qBump, qLookup, h]
    · simpa [qBump, qLookup, h] using ih

theorem fsLookup_fsWrite (fs : FS) (k : Bool × List String) (v : List Nat) :
    fsLookup (fsWrite fs k v) k = some v := by
  induction fs with
  | nil => simp [fsWrite, fsLookup]
  | cons e rest ih =>
    obtain ⟨k2, w⟩ := e
    by_cases h : k2 = k
    · simp [fsWrite, fsLookup, h]
    · simpa [fsWrite, fsLookup, h] using ih

theorem mem_fsWrite (fs : FS) (k : Bool × List String) (v : List Nat) :
    (k, v) ∈ fsWrite fs k v := by
  induction fs with
  | nil => simp [fsWrite]
  | cons e rest ih =>
    obtain ⟨k2, w⟩ := e
    by_cases h : k2 = k
    · simp [fsWrite, h]
    · simp only [fsWrite, if_neg h, List.mem_cons]
      exact Or.inr ih

theorem mem_insSorted (x a : String × Nat) (l : List (String × Nat)) :
    a ∈ insSorted x l ↔ a = x ∨ a ∈ l := by
  induction l with
  | nil => simp [insSorted]
  | cons y ys ih =>
    by_cases h : lexLe x.1.toList y.1.toList
    · simp only [insSorted, if_pos h, List.mem_cons]
    · simp only [insSorted, if_neg h, List.mem_cons, ih]
      tauto

theorem mem_sortEntries (a : String × Nat) (l : List (String × Nat)) :
    a ∈ sortEntries l ↔ a ∈ l := by
  induction l with
  | nil => simp [sortEntries]
  | cons y ys ih =>
    show a ∈ insSorted y (sortEntries ys) ↔ _
    rw [mem_insSorted, ih, List.mem_cons]

theorem chainLe_cumSumsFrom (l : List Nat) :
    ∀ acc, List.Chain' (· ≤ ·) (cumSumsFrom acc l) := by
  induction l with
  | nil => intro acc; simp [cumSumsFrom]
  | cons x xs ih =>
    intro acc
    rw [cumSumsFrom, List.chain'_cons']
    refine ⟨?_, ih (acc + x)⟩
    intro b hb
    cases xs with
    | nil => simp [cumSumsFrom] at hb
    | cons y ys =>
      simp [cumSumsFrom] at hb
      omega

theorem getLastD_cumSumsFrom (l : List Nat) :
    ∀ acc, (cumSumsFrom acc l).getLastD acc = acc + l.sum := by
  induction l with
  | nil => intro acc; simp [cumSumsFrom]
  | cons x xs ih =>
    intro acc
    rw [cumSumsFrom, List.getLastD_cons, ih (acc + x)]
    simp only [List.sum_cons]
    omega

theorem string_of_toList_nil (s : String) (h : s.toList = []) : s = "" := by
  cases s
  simp only [String.toList] at h
  subst h
  rfl

theorem splitRaw_no_slash (l : List Char) (h : '/' ∉ l) : splitRaw l = [l] := by
  induction l with
  | nil => rfl
  | cons c rest ih =>
    have hc : ¬ c = '/' := fun e => h (by simp [e])
    have hr : '/' ∉ rest := fun m => h (List.mem_cons_of_mem _ m)
    simp only [splitRaw, if_neg hc, ih hr]

theorem splitRaw_append (a b : List Char) (h : '/' ∉ a) :
    splitRaw (a ++ '/' :: b) = a :: splitRaw b := by
  induction a with
  | nil => simp [splitRaw]
  | cons c rest ih =>
    have hc : ¬ c = '/' := fun e => h (by simp [e])
    have hr : '/' ∉ rest := fun m => h (List.mem_cons_of_mem _ m)
    simp only [List.cons_append, splitRaw, if_neg hc, List.append_eq, ih hr]

theorem toList_ne_nil (s : String) (h : s ≠ "") : s.toList ≠ [] :=
  fun e => h (string_of_toList_nil s e)

theorem mem_of_headChar (l : List Char) (c : Char) (h : l.head? = some c) :
    c ∈ l := by
  cases l with
  | nil => cases h
  | cons a as =>
    injection h with h
    subst h
    exact List.mem_cons_self a as

theorem pathJoin_comps (u fn : String) (hu : validComp u) (hf : validComp fn) :
    (pathJoin (user_dir u) fn).toList =
      "data".toList ++ '/' :: (u.toList ++ '/' :: fn.toList) := by
  obtain ⟨hu0, hu1, hu2, hu3⟩ := hu
  obtain ⟨hf0, hf1, hf2, hf3⟩ := hf
  have huh : ¬ u.toList.head? = some '/' := fun e => hu3 (mem_of_headChar _ _ e)
  have hfh : ¬ fn.toList.head? = some '/' := fun e => hf3 (mem_of_headChar _ _ e)
  have hstep1 : user_dir u = "data" ++ "/" ++ u := by
    unfold user_dir pathJoin DATA_ROOT
    rw [if_neg huh, if_neg (by decide)]
  have ha : ("data" ++ "/" ++ u).toList =
      'd' :: 'a' :: 't' :: 'a' :: '/' :: u.toList := by
    have e1 : ("data" ++ "/" ++ u).toList =
        "data".toList ++ "/".toList ++ u.toList := by
      simp [String.data_append]
    rw [e1]
    rfl
  have hane : ¬ ("data" ++ "/" ++ u) = "" := by
    intro e
    have e2 : ("data" ++ "/" ++ u).toList = [] := by rw [e]; decide
    rw [ha] at e2
    simp at e2
  obtain ⟨x, hx⟩ : ∃ x, u.toList.getLast? = some x := by
    cases hl : u.toList with
    | nil => exact absurd hl (toList_ne_nil u hu0)
    | cons c cs =>
      exact ⟨(c :: cs).getLast (by simp), List.getLast?_eq_getLast _ _⟩
  have hxmem : x ∈ u.toList := List.mem_of_getLast?_eq_some hx
  have hxs : x ≠ '/' := fun e => hu3 (e ▸ hxmem)
  have hlast : ("data" ++ "/" ++ u).toList.getLast? = some x := by
    rw [ha]
    show ('d' :: 'a' :: 't' :: 'a' :: '/' :: u.toList).getLast? = some x
    rw [show ('d' :: 'a' :: 't' :: 'a' :: '/' :: u.toList) =
          ['d', 'a', 't', 'a', '/'] ++ u.toList from rfl]
    rw [List.getLast?_append, hx]
    rfl
  have hstep2 : pathJoin ("data" ++ "/" ++ u) fn =
      ("data" ++ "/" ++ u) ++ "/" ++ fn := by
    unfold pathJoin
    rw [if_neg hfh, if_neg]
    intro hor
    rcases hor with h1 | h2
    · exact hane h1
    · rw [hlast] at h2
      injection h2 with h2
      exact hxs h2
  rw [hstep1, hstep2]
  have e3 : ((("data" ++ "/" ++ u) ++ "/") ++ fn).toList =
      (("data" ++ "/" ++ u).toList ++ "/".toList) ++ fn.toList := by
    simp [String.data_append]
  rw [e3, ha]
  simp

theorem normPath_user_target (u fn : String) (hu : validComp u)
    (hf : validComp fn) :
    normPath (pathJoin (user_dir u) fn) = (false, ["data", u, fn]) := by
  have ht := pathJoin_comps u fn hu hf
  obtain ⟨hu0, hu1, hu2, hu3⟩ := hu
  obtain ⟨hf0, hf1, hf2, hf3⟩ := hf
  have habs : isAbsPath (pathJoin (user_dir u) fn) = false := by
    unfold isAbsPath
    rw [ht]
    rfl
  unfold normPath
  rw [habs, ht]
  rw [splitRaw_append _ _ (by decide), splitRaw_append _ _ hu3,
    splitRaw_no_slash _ hf3]
  simp only [List.map_cons, List.map_nil]
  show (false, normFold false [] ["data", u, fn]) = (false, ["data", u, fn])
  have s1 : normFold false [] ["data", u, fn] = normFold false ["data"] [u, fn] := by
    simp [normFold]
  have s2 : normFold false ["data"] [u, fn] = normFold false [u, "data"] [fn] := by
    simp [normFold, hu0, hu1, hu2]
  have s3 : normFold false [u, "data"] [fn] = [fn, u, "data"].reverse := by
    simp [normFold, hf0, hf1, hf2]
  rw [s1, s2, s3]
  rfl

/-! ### Claim theorems -/

/-- C1: the claim says an upload whose filename contains path-escaping
components fails with `InvalidName` and no file is written outside the
user's directory. `api_upload` performs no such check: the upload of
`../evil.zip` by user `alice` succeeds and the file is written at
`data/evil.zip`, outside `data/alice`. -/
theorem claim01_traversal_unchecked :
    (api_upload [] "alice" "../evil.zip" [[7, 7]]).1 = UploadResult.ok ∧
    (api_upload [] "alice" "../evil.zip" [[7, 7]]).2.1 =
      [((false, ["data", "evil.zip"]), [7, 7])] ∧
    insideUserDir "alice"
      (normPath (pathJoin (user_dir "alice") "../evil.zip")) = false := by
  decide

/-- C2 counterexample: the claim says a claim made exactly at
`expires_at` fails; on a store holding a token whose `expire_at` is 100,
a claim at `now = 100` in fact succeeds (and consumes the row). -/
theorem claim02_counterexample :
    api_qr_claim [("tok1", "alice", 100)] "tok1" 100 =
      (ClaimResult.ok "alice", []) ∧
    (api_qr_claim [("tok1", "alice", 100)] "tok1" 100).1.isErr = false := by
  decide

/-- C2 amended: a claim fails with `InvalidOrExpiredToken` iff the token
is absent or `now > expires_at`; a claim made exactly at `expires_at`
(or earlier) succeeds. -/
theorem claim02_expiry_boundary (store : QrStore) (token : String) (now : Int) :
    (qrLookup store token = none →
      api_qr_claim store token now = (ClaimResult.invalidToken, store)) ∧
    (∀ u e, qrLookup store token = some (u, e) → e < now →
      api_qr_claim store token now = (ClaimResult.expired, store)) ∧
    (∀ u e, qrLookup store token = some (u, e) → now ≤ e →
      (api_qr_claim store token now).1 = ClaimResult.ok u) := by
  refine ⟨?_, ?_, ?_⟩
  · intro h
    simp [api_qr_claim, h]
  · intro u e h he
    simp [api_qr_claim, h, he]
  · intro u e h he
    simp [api_qr_claim, h, show ¬ e < now from not_lt.mpr he]

/-- C2 witness: the three branches of the amended claim at concrete
stores and instants. -/
theorem claim02_witness :
    api_qr_claim [("t2", "bob", 100)] "zz" 50 =
      (ClaimResult.invalidToken, [("t2", "bob", 100)]) ∧
    api_qr_claim [("t2", "bob", 100)] "t2" 101 =
      (ClaimResult.expired, [("t2", "bob", 100)]) ∧
    (api_qr_claim [("t2", "bob", 100)] "t2" 100).1 = ClaimResult.ok "bob" :=
  ⟨(claim02_expiry_boundary [("t2", "bob", 100)] "zz" 50).1 (by decide),
   (claim02_expiry_boundary [("t2", "bob", 100)] "t2" 101).2.1 "bob" 100
     (by decide) (by decide),
   (claim02_expiry_boundary [("t2", "bob", 100)] "t2" 100).2.2 "bob" 100
     (by decide) (by decide)⟩

/-- C3: a successful claim deletes the token's row, so the token is no
longer in the store and a second claim of it fails with the
`InvalidOrExpiredToken` error at any later instant. -/
theorem claim03_single_use (store : QrStore) (token : String) (now now2 : Int)
    (u : String) (store2 : QrStore)
    (h : api_qr_claim store token now = (ClaimResult.ok u, store2)) :
    qrLookup store2 token = none ∧
    api_qr_claim store2 token now2 = (ClaimResult.invalidToken, store2) := by
  have hdel : store2 = qrDelete store token := by
    cases hl : qrLookup store token with
    | none => simp [api_qr_claim, hl] at h
    | some p =>
      obtain ⟨u2, e⟩ := p
      by_cases he : e < now
      · simp [api_qr_claim, hl, he] at h
      · simp [api_qr_claim, hl, he] at h
        exact h.2.symm
  subst hdel
  refine ⟨qrLookup_qrDelete store token, ?_⟩
  simp [api_qr_claim, qrLookup_qrDelete store token]

/-- C3 witness: claiming `t3` succeeds once and the second claim fails. -/
theorem claim03_witness :
    qrLookup ([] : QrStore) "t3" = none ∧
    api_qr_claim ([] : QrStore) "t3" 60 = (ClaimResult.invalidToken, []) :=
  claim03_single_use [("t3", "carol", 100)] "t3" 50 60 "carol" [] (by decide)

/-- C4: registration fails with `QuotaExceeded` on every attempt from an
address at or above the cap of 2, whatever (nonempty) username is
submitted; below the cap, a fresh username registers successfully and
the address's count rises by one (so the first two attempts from an
address succeed and all later ones are refused). -/
theorem claim04_quota_cap :
    (∀ st u p ip, 2 ≤ quotaCount st ip → stripWs u ≠ "" → p ≠ "" →
      (api_register st u p ip).1 = RegResult.quotaExceeded) ∧
    (∀ st u p ip, quotaCount st ip < 2 → stripWs u ≠ "" → p ≠ "" →
      stripWs u ∉ st.users →
      (api_register st u p ip).1 = RegResult.ok ∧
      quotaCount (api_register st u p ip).2 ip = quotaCount st ip + 1) := by
  constructor
  · intro st u p ip hq hu hp
    simp only [api_register]
    rw [if_neg (not_or.mpr ⟨hu, hp⟩), if_pos hq]
  · intro st u p ip hq hu hp hm
    simp only [api_register]
    rw [if_neg (not_or.mpr ⟨hu, hp⟩), if_neg (by omega), if_neg hm]
    refine ⟨rfl, ?_⟩
    show quotaCount ⟨stripWs u :: st.users, qBump st.quota ip⟩ ip = _
    unfold quotaCount
    rw [show (⟨stripWs u :: st.users, qBump st.quota ip⟩ : RegState).quota =
          qBump st.quota ip from rfl]
    rw [qLookup_qBump]
    rfl

/-- C4 witness: from a clean state, two registrations from one address
succeed and the third fails with `QuotaExceeded`. -/
theorem claim04_witness :
    (api_register ⟨[], []⟩ "alice" "pw" "10.0.0.5").1 = RegResult.ok ∧
    (api_register ⟨["alice"], [("10.0.0.5", 1)]⟩ "bob" "pw" "10.0.0.5").1 =
      RegResult.ok ∧
    (api_register ⟨["bob", "alice"], [("10.0.0.5", 2)]⟩ "carol" "pw"
        "10.0.0.5").1 = RegResult.quotaExceeded :=
  ⟨(claim04_quota_cap.2 ⟨[], []⟩ "alice" "pw" "10.0.0.5" (by decide)
      (by decide) (by decide) (by decide)).1,
   (claim04_quota_cap.2 ⟨["alice"], [("10.0.0.5", 1)]⟩ "bob" "pw" "10.0.0.5"
      (by decide) (by decide) (by decide) (by decide)).1,
   claim04_quota_cap.1 ⟨["bob", "alice"], [("10.0.0.5", 2)]⟩ "carol" "pw"
     "10.0.0.5" (by decide) (by decide) (by decide)⟩

/-- C5: a session token issued at `t` carries expiry `t + 24h`; verifying
it strictly before that instant returns the bound username and verifying
it strictly after returns nothing. -/
theorem claim05_session_expiry (u : String) (t now : Int) :
    (now < t + 24 * 60 * 60 → verify_jwt (create_jwt u t) now = some u) ∧
    (t + 24 * 60 * 60 < now → verify_jwt (create_jwt u t) now = none) := by
  have hexp : (create_jwt u t).exp = t + 24 * 60 * 60 := by
    show t + JWT_EXP_MIN * 60 = t + 24 * 60 * 60
    norm_num [JWT_EXP_MIN]
  have hsig : (create_jwt u t).sig =
      macSign SECRET_KEY (create_jwt u t).sub (create_jwt u t).exp := rfl
  constructor
  · intro h
    unfold verify_jwt
    rw [if_pos ⟨hsig, by rw [hexp]; omega⟩]
    rfl
  · intro h
    unfold verify_jwt
    rw [if_neg]
    rintro ⟨-, hlt⟩
    rw [hexp] at hlt
    omega

/-- C5 witness: a token issued at 0 verifies at 23h59m and fails at
24h01m. -/
theorem claim05_witness :
    verify_jwt (create_jwt "alice" 0) 86340 = some "alice" ∧
    verify_jwt (create_jwt "alice" 0) 86460 = none :=
  ⟨(claim05_session_expiry "alice" 0 86340).1 (by decide),
   (claim05_session_expiry "alice" 0 86460).2 (by decide)⟩

/-- C6: an upload whose lower-cased extension is not in
`\x7b.zip, .rar, .apk\x7d` is rejected with `UnsupportedType` and nothing is
written; one with an allowed extension succeeds and afterwards appears in
the user's listing with size equal to the bytes written. -/
theorem claim06_extension_filter :
    (∀ fs (u fn : String) chunks, fn ≠ "" →
      lowerStr (splitext fn).2 ∉ ALLOWED_EXTS →
      api_upload fs u fn chunks = (UploadResult.unsupportedType, fs, [])) ∧
    (∀ fs (u fn : String) chunks, validComp u → validComp fn →
      lowerStr (splitext fn).2 ∈ ALLOWED_EXTS →
      (api_upload fs u fn chunks).1 = UploadResult.ok ∧
      (fn, (chunks.takeWhile (fun c => !c.isEmpty)).flatten.length) ∈
        list_user_files u (api_upload fs u fn chunks).2.1) := by
  constructor
  · intro fs u fn chunks hne hns
    unfold api_upload
    rw [if_neg hne, if_neg hns]
  · intro fs u fn chunks hu hf hext
    have hne : fn ≠ "" := hf.1
    unfold api_upload
    rw [if_neg hne, if_pos hext]
    refine ⟨rfl, ?_⟩
    show (fn, (chunks.takeWhile (fun c => !c.isEmpty)).flatten.length) ∈
      list_user_files u
        (fsWrite fs (normPath (pathJoin (user_dir u) fn))
          (chunks.takeWhile (fun c => !c.isEmpty)).flatten)
    rw [normPath_user_target u fn hu hf]
    unfold list_user_files
    rw [mem_sortEntries]
    apply List.mem_filterMap.mpr
    refine ⟨((false, ["data", u, fn]),
      (chunks.takeWhile (fun c => !c.isEmpty)).flatten),
      mem_fsWrite _ _ _, ?_⟩
    simp [fileEntry]

/-- C6 witness: `a.txt` is refused, `a.zip` with 3 bytes lands in the
listing with size 3. -/
theorem claim06_witness :
    api_upload [] "alice" "a.txt" [[5]] = (UploadResult.unsupportedType, [], []) ∧
    (api_upload [] "alice" "a.zip" [[1], [2, 3]]).1 = UploadResult.ok ∧
    ("a.zip", 3) ∈
      list_user_files "alice" (api_upload [] "alice" "a.zip" [[1], [2, 3]]).2.1 :=
  ⟨claim06_extension_filter.1 [] "alice" "a.txt" [[5]] (by decide) (by decide),
   (claim06_extension_filter.2 [] "alice" "a.zip" [[1], [2, 3]] (by decide)
      (by decide) (by decide)).1,
   (claim06_extension_filter.2 [] "alice" "a.zip" [[1], [2, 3]] (by decide)
      (by decide) (by decide)).2⟩

/-- C7: within one upload the broadcast cumulative byte totals are
non-decreasing, and on success the destination file holds exactly the
streamed bytes and the final broadcast total equals their count. -/
theorem claim07_progress_monotone (fs : FS) (u fn : String)
    (chunks : List (List Nat)) :
    List.Chain' (· ≤ ·) (api_upload fs u fn chunks).2.2 ∧
    ((api_upload fs u fn chunks).1 = UploadResult.ok →
      fsLookup (api_upload fs u fn chunks).2.1
          (normPath (pathJoin (user_dir u) fn)) =
        some (chunks.takeWhile (fun c => !c.isEmpty)).flatten ∧
      ((api_upload fs u fn chunks).2.2).getLastD 0 =
        (chunks.takeWhile (fun c => !c.isEmpty)).flatten.length) := by
  unfold api_upload
  by_cases h1 : fn = ""
  · rw [if_pos h1]
    exact ⟨List.chain'_nil, fun h => by simp at h⟩
  · rw [if_neg h1]
    by_cases h2 : lowerStr (splitext fn).2 ∈ ALLOWED_EXTS
    · rw [if_pos h2]
      refine ⟨chainLe_cumSumsFrom _ 0, fun _ => ⟨fsLookup_fsWrite fs _ _, ?_⟩⟩
      show (cumSumsFrom 0
          ((chunks.takeWhile (fun c => !c.isEmpty)).map List.length)).getLastD 0 =
        (chunks.takeWhile (fun c => !c.isEmpty)).flatten.length
      rw [getLastD_cumSumsFrom]
      simp [List.length_flatten]
    · rw [if_neg h2]
      exact ⟨List.chain'_nil, fun h => by simp at h⟩

/-- C7 witness: a three-read upload (the last read empty) broadcasts
non-decreasing totals ending at the 3 bytes stored on disk. -/
theorem claim07_witness :
    List.Chain' (· ≤ ·) (api_upload [] "carol" "c.zip" [[4], [5, 6], []]).2.2 ∧
    fsLookup (api_upload [] "carol" "c.zip" [[4], [5, 6], []]).2.1
        (normPath (pathJoin (user_dir "carol") "c.zip")) = some [4, 5, 6] ∧
    ((api_upload [] "carol" "c.zip" [[4], [5, 6], []]).2.2).getLastD 0 = 3 :=
  ⟨(claim07_progress_monotone [] "carol" "c.zip" [[4], [5, 6], []]).1,
   ((claim07_progress_monotone [] "carol" "c.zip" [[4], [5, 6], []]).2
      (by decide)).1,
   ((claim07_progress_monotone [] "carol" "c.zip" [[4], [5, 6], []]).2
      (by decide)).2⟩

/-- C8 counterexample: the claim says a found-but-expired row is deleted
by the failed claim; on a store holding a row expired at 100, a claim at
101 fails but the row is still present afterwards. -/
theorem claim08_counterexample :
    api_qr_claim [("tok8", "bob", 100)] "tok8" 101 =
      (ClaimResult.expired, [("tok8", "bob", 100)]) ∧
    qrLookup (api_qr_claim [("tok8", "bob", 100)] "tok8" 101).2 "tok8" =
      some ("bob", 100) := by
  decide

/-- C8 amended: a claim that finds the token's row past expiry fails with
the `InvalidOrExpiredToken` error but does not delete the row: the store
is returned unchanged and the expired row is still present. -/
theorem claim08_expired_row_kept (store : QrStore) (token : String) (now : Int)
    (u : String) (e : Int) (h : qrLookup store token = some (u, e))
    (he : e < now) :
    api_qr_claim store token now = (ClaimResult.expired, store) ∧
    qrLookup (api_qr_claim store token now).2 token = some (u, e) := by
  have h1 : api_qr_claim store token now = (ClaimResult.expired, store) := by
    simp [api_qr_claim, h, he]
  exact ⟨h1, by rw [h1]; exact h⟩

/-- C8 witness: the expired row for `tok9` survives its failed claim. -/
theorem claim08_witness :
    api_qr_claim [("tok9", "dan", 10)] "tok9" 11 =
      (ClaimResult.expired, [("tok9", "dan", 10)]) ∧
    qrLookup (api_qr_claim [("tok9", "dan", 10)] "tok9" 11).2 "tok9" =
      some ("dan", 10) :=
  claim08_expired_row_kept [("tok9", "dan", 10)] "tok9" 11 "dan" 10
    (by decide) (by decide)

/-- C9: a registration attempt that hits the duplicate-username integrity
error leaves the whole state — in particular the address's quota
counter — unchanged, because the transaction is rolled back. -/
theorem claim09_duplicate_rolls_back (st : RegState) (u p ip : String)
    (hu : stripWs u ≠ "") (hp : p ≠ "") (hq : quotaCount st ip < 2)
    (hm : stripWs u ∈ st.users) :
    api_register st u p ip = (RegResult.duplicateUsername, st) := by
  simp only [api_register]
  rw [if_neg (not_or.mpr ⟨hu, hp⟩), if_neg (by omega), if_pos hm]

/-- C9 witness: re-registering `alice` fails and the quota row for the
address keeps its count of 1. -/
theorem claim09_witness :
    api_register ⟨["alice"], [("10.0.0.5", 1)]⟩ "alice" "pw" "10.0.0.5" =
      (RegResult.duplicateUsername, ⟨["alice"], [("10.0.0.5", 1)]⟩) :=
  claim09_duplicate_rolls_back ⟨["alice"], [("10.0.0.5", 1)]⟩ "alice" "pw"
    "10.0.0.5" (by decide) (by decide) (by decide) (by decide)

/-- C10: the extension check lower-cases the `splitext` extension before
comparing it with the allowed set, so any filename whose lower-cased
extension is allowed (such as `A.ZIP`) is accepted. -/
theorem claim10_lowercase_ext (fs : FS) (u fn : String)
    (chunks : List (List Nat))
    (h : lowerStr (splitext fn).2 ∈ ALLOWED_EXTS) :
    (api_upload fs u fn chunks).1 = UploadResult.ok := by
  have hne : fn ≠ "" := by
    intro e
    subst e
    exact absurd h (by decide)
  unfold api_upload
  rw [if_neg hne, if_pos h]

/-- C10 witness: `A.ZIP` is accepted. -/
theorem claim10_witness :
    (api_upload [] "bob" "A.ZIP" [[9]]).1 = UploadResult.ok :=
  claim10_lowercase_ext [] "bob" "A.ZIP" [[9]] (by decide)

end NasMini
